import Mathlib

/-!
Verification of the RAM-Eating-Pet-Simulator core against its specification.

This file gives a shallow embedding, in Lean 4, of the resource-management
core of the simulator (src/system/memory.rs, src/pet/metabolism.rs,
src/pet/mod.rs, src/game.rs) and proves or refutes the specified
properties about it.

Modelling conventions:
* Rust `usize` values are modelled as `Nat` (all quantities here are small
  counts of megabytes, far from overflow; `usize::saturating_sub` is `Nat`
  subtraction, which saturates at 0).
* Rust `f32` fields (`base_rate`, `modifier`, `digestion_timer`, `hunger`,
  `happiness`) are modelled as `ℚ`.  Every concrete f32 value is a rational
  and f32 `min`/`max` and comparisons are exact, so the clamping and
  branching structure is preserved; `as usize` is truncation toward zero
  saturating at 0 (`ratToUsize`), and `f32::fract` is `fractQ`.
* A 1 MiB memory block is modelled by its byte contents, a function from
  byte offset to byte value (`Block`).
* The environment is passed explicitly: the freshly sampled free-RAM value
  that `SystemMonitor::get_free_ram_mb` would return is a parameter
  `free_ram`, and the OS decision of whether the i-th raw 1 MiB block
  request of a call succeeds is an oracle `osOk : Nat → Bool`
  (`MemoryManager::allocate_block` has the fallible type
  `Result<Box<[u8; 1048576]>>`).
* Rust methods that always return `Ok(())` and whose interesting content is
  the state change (`Pet::eat`, `Pet::metabolize`) are modelled as state
  transformers; methods whose result value matters keep an explicit
  `Except` result.
-/

/-- A 1 MiB block of memory, given by its byte contents
(models `Box<[u8; 1_048_576]>` from src/system/memory.rs). -/
def Block : Type := Nat → Nat

/-- Number of bytes in a block (1_048_576 in the source). -/
def BLOCK_SIZE : Nat := 1048576

/-- The all-zero block produced by `vec![0u8; 1_048_576]` in
`MemoryManager::allocate_block`. -/
def zeroBlock : Block := fun _ => 0

/-- Errors surfaced by the memory manager (the source uses `anyhow!`
with formatted messages; we keep the distinguishing data). -/
inductive MemError where
  | insufficientMemory (amount_mb free_ram min_free_ram : Nat)
  | allocationFailed

/-- The memory manager state: the vector of allocated 1 MiB blocks and the
configured minimum free RAM (src/system/memory.rs `MemoryManager`). -/
structure MemoryManager where
  allocated_blocks : List Block
  min_free_ram : Nat

/-- `MemoryManager::new`. -/
def MemoryManager.new (min_free_ram_mb : Nat) : MemoryManager :=
  { allocated_blocks := [], min_free_ram := min_free_ram_mb }

/-- `MemoryManager::allocate_block`: a single 1 MiB zero-filled block.
The boolean says whether the OS grants the underlying raw allocation
(the Rust signature is `Result<Box<[u8; 1_048_576]>>`). -/
def MemoryManager.allocate_block (osGrants : Bool) : Except MemError Block :=
  if osGrants then Except.ok zeroBlock else Except.error MemError.allocationFailed

/-- `n` repetitions of `Vec::pop` (used by the rollback loop in
`allocate`, by `release` and by `digest`). -/
def popN (blocks : List Block) : Nat → List Block
  | 0 => blocks
  | n + 1 => popN blocks.dropLast n

/-- The `for i in 0..amount_mb` loop body of `MemoryManager::allocate`:
`i` blocks have been pushed so far, `k` remain.  On an intermediate
failure the loop pops the `i` blocks pushed by this call and returns the
error. -/
def allocLoop (osOk : Nat → Bool) : List Block → Nat → Nat → List Block × Except MemError Unit
  | blocks, _, 0 => (blocks, Except.ok ())
  | blocks, i, k + 1 =>
    match MemoryManager.allocate_block (osOk i) with
    | Except.ok block => allocLoop osOk (blocks ++ [block]) (i + 1) k
    | Except.error _ => (popN blocks i, Except.error MemError.allocationFailed)

/-- `MemoryManager::allocate`: pre-check against a fresh free-RAM sample,
then append `amount_mb` blocks, rolling back on intermediate failure. -/
def MemoryManager.allocate (m : MemoryManager) (amount_mb free_ram : Nat)
    (osOk : Nat → Bool) : MemoryManager × Except MemError Unit :=
  if free_ram < amount_mb + m.min_free_ram then
    (m, Except.error (MemError.insufficientMemory amount_mb free_ram m.min_free_ram))
  else
    let r := allocLoop osOk m.allocated_blocks 0 amount_mb
    ({ m with allocated_blocks := r.1 }, r.2)

/-- `MemoryManager::release`: pops `min(amount_mb, blocks.len())` blocks
and returns `Ok(())`. -/
def MemoryManager.release (m : MemoryManager) (amount_mb : Nat) :
    MemoryManager × Except MemError Unit :=
  let to_release := min amount_mb m.allocated_blocks.length
  ({ m with allocated_blocks := popN m.allocated_blocks to_release }, Except.ok ())

/-- `MemoryManager::clear`. -/
def MemoryManager.clear (m : MemoryManager) : MemoryManager :=
  { m with allocated_blocks := [] }

/-- `MemoryManager::get_allocated_mb`: the pool length. -/
def MemoryManager.get_allocated_mb (m : MemoryManager) : Nat :=
  m.allocated_blocks.length

/-- The write pass of `MemoryManager::touch_memory` on the block with
index `i`: every 4096th byte is set to `i % 256`. -/
def touchBlock (i : Nat) (b : Block) : Block :=
  fun off => if off < BLOCK_SIZE ∧ off % 4096 = 0 then i % 256 else b off

/-- `MemoryManager::touch_memory`: writes the pattern into every block of
the pool.  Note this is a separate public method; it is not called by
`allocate` (nor by anything else in the repository). -/
def MemoryManager.touch_memory (m : MemoryManager) :
    MemoryManager × Except MemError Unit :=
  ({ m with allocated_blocks := m.allocated_blocks.enum.map fun p => touchBlock p.1 p.2 },
   Except.ok ())

/-- `MemoryManager::digest`: early `Ok(0)` on an empty pool, otherwise
pops `min(amount_mb, blocks.len())` blocks and returns that count. -/
def MemoryManager.digest (m : MemoryManager) (amount_mb : Nat) :
    MemoryManager × Except MemError Nat :=
  let current_size := m.allocated_blocks.length
  if current_size = 0 then (m, Except.ok 0)
  else
    let to_digest := min amount_mb current_size
    ({ m with allocated_blocks := popN m.allocated_blocks to_digest },
     Except.ok to_digest)

/-! Helper lemmas about the memory manager. -/

theorem popN_length (n : Nat) : ∀ l : List Block, (popN l n).length = l.length - n := by
  induction n with
  | zero => intro l; rfl
  | succ n ih =>
    intro l
    show (popN l.dropLast n).length = l.length - (n + 1)
    rw [ih l.dropLast, List.length_dropLast]
    omega

theorem allocLoop_spec (osOk : Nat → Bool) (k : Nat) :
    ∀ (blocks : List Block) (i : Nat),
      (match allocLoop osOk blocks i k with
       | (blocks1, Except.ok _) => blocks1.length = blocks.length + k
       | (blocks1, Except.error e) =>
           blocks1.length = blocks.length - i ∧ e = MemError.allocationFailed) := by
  induction k with
  | zero => intro blocks i; simp [allocLoop]
  | succ k ih =>
    intro blocks i
    simp only [allocLoop, MemoryManager.allocate_block]
    by_cases h : osOk i = true
    · simp only [h, if_true]
      have hrec := ih (blocks ++ [zeroBlock]) (i + 1)
      rcases hl : allocLoop osOk (blocks ++ [zeroBlock]) (i + 1) k with ⟨blocks1, r⟩
      rw [hl] at hrec
      cases r with
      | ok u => simp only [List.length_append, List.length_singleton] at hrec ⊢; omega
      | error e =>
        simp only [List.length_append, List.length_singleton] at hrec ⊢
        exact ⟨by omega, hrec.2⟩
    · simp only [h, if_false]
      exact ⟨popN_length i blocks, rfl⟩

theorem allocLoop_allOk (k : Nat) :
    ∀ (blocks : List Block) (i : Nat),
      allocLoop (fun _ => true) blocks i k =
        (blocks ++ List.replicate k zeroBlock, Except.ok ()) := by
  induction k with
  | zero => intro blocks i; simp [allocLoop]
  | succ k ih =>
    intro blocks i
    show allocLoop (fun _ => true) (blocks ++ [zeroBlock]) (i + 1) k = _
    rw [ih]
    simp [List.replicate_succ, List.append_assoc]

/-! Claims about the memory manager. -/

/-- Fixed manager values used in concrete counterexamples. -/
def mmOne : MemoryManager :=
  { allocated_blocks := [zeroBlock], min_free_ram := 100 }

def mmThree : MemoryManager :=
  { allocated_blocks := [zeroBlock, zeroBlock, zeroBlock], min_free_ram := 100 }

/-- C1: evaluation of the code at the failing input.  A successful
`allocate(2)` on an empty manager appends two blocks that are identically
zero — `allocate` performs pure zero-fill allocation and no touch pass:
`touch_memory` (whose pass would write pattern `1` at offset 0 of the
second block, as the third conjunct shows) is a separate method that
`allocate` never calls, and it has no callers anywhere in the repository. -/
theorem allocate_is_zero_fill_without_touch :
    ((MemoryManager.new 100).allocate 2 10000 (fun _ => true)).2 = Except.ok () ∧
    ((MemoryManager.new 100).allocate 2 10000 (fun _ => true)).1.allocated_blocks
       = [zeroBlock, zeroBlock] ∧
    (((MemoryManager.new 100).allocate 2 10000 (fun _ => true)).1.touch_memory.1.allocated_blocks.getD
       1 zeroBlock) 0 = 1 ∧
    zeroBlock 0 = 0 :=
  ⟨rfl, rfl, rfl, rfl⟩

/-- C2: `allocate` is all-or-nothing: for every starting pool and every
`amount_mb > 0`, an `Ok` result grows `get_allocated_mb` by exactly
`amount_mb`, and any error (pre-check or rolled-back intermediate block
failure, as decided by the OS oracle `osOk`) leaves it unchanged. -/
theorem allocate_all_or_nothing (m : MemoryManager) (amount_mb free_ram : Nat)
    (osOk : Nat → Bool) (h1 : 0 < amount_mb) :
    (match m.allocate amount_mb free_ram osOk with
     | (m1, Except.ok _) => m1.get_allocated_mb = m.get_allocated_mb + amount_mb
     | (m1, Except.error _) => m1.get_allocated_mb = m.get_allocated_mb) := by
  unfold MemoryManager.allocate
  by_cases h : free_ram < amount_mb + m.min_free_ram
  · simp [h]
  · simp only [h, if_false]
    have hspec := allocLoop_spec osOk amount_mb m.allocated_blocks 0
    rcases hl : allocLoop osOk m.allocated_blocks 0 amount_mb with ⟨blocks1, r⟩
    rw [hl] at hspec
    cases r with
    | ok u =>
      simpa [MemoryManager.get_allocated_mb] using hspec
    | error e =>
      simpa [MemoryManager.get_allocated_mb] using hspec.1

/-- Witness for C2 at a concrete input. -/
theorem allocate_all_or_nothing_witness :
    0 < 1 ∧
    (match (MemoryManager.new 0).allocate 1 10 (fun _ => true) with
     | (m1, Except.ok _) => m1.get_allocated_mb = (MemoryManager.new 0).get_allocated_mb + 1
     | (m1, Except.error _) => m1.get_allocated_mb = (MemoryManager.new 0).get_allocated_mb) :=
  ⟨by decide, allocate_all_or_nothing (MemoryManager.new 0) 1 10 (fun _ => true) (by decide)⟩

/-- C3: `allocate` fails with `InsufficientMemory` exactly when the fresh
free-RAM sample satisfies `free_ram < amount_mb + min_free_ram`, leaving
the pool untouched (so in particular at `free_ram = amount_mb +
min_free_ram - 1`); when `free_ram ≥ amount_mb + min_free_ram` the
pre-check passes and blocks are appended (if the OS later refuses a block
the error is `AllocationFailed`, never `InsufficientMemory`). -/
theorem allocate_insufficient_iff (m : MemoryManager) (amount_mb free_ram : Nat)
    (osOk : Nat → Bool) :
    (if free_ram < amount_mb + m.min_free_ram then
       m.allocate amount_mb free_ram osOk =
         (m, Except.error (MemError.insufficientMemory amount_mb free_ram m.min_free_ram))
     else
       (match m.allocate amount_mb free_ram osOk with
        | (m1, Except.ok _) => m1.get_allocated_mb = m.get_allocated_mb + amount_mb
        | (_, Except.error e) => e = MemError.allocationFailed)) := by
  by_cases h : free_ram < amount_mb + m.min_free_ram
  · simp [h, MemoryManager.allocate]
  · simp only [h, if_false]
    unfold MemoryManager.allocate
    simp only [h, if_false]
    have hspec := allocLoop_spec osOk amount_mb m.allocated_blocks 0
    rcases hl : allocLoop osOk m.allocated_blocks 0 amount_mb with ⟨blocks1, r⟩
    rw [hl] at hspec
    cases r with
    | ok u => simpa [MemoryManager.get_allocated_mb] using hspec
    | error e => exact hspec.2

/-- C4 amended: `release` never errors and removes exactly
`min(amount_mb, allocated_mb)` blocks, but its `Ok` value is unit — it
does not return the amount removed; `digest` performs the same removal on
the pool and is the method that returns the actual amount removed. -/
theorem release_digest_contract (m : MemoryManager) (amount_mb : Nat) :
    (m.release amount_mb).2 = Except.ok () ∧
    (m.release amount_mb).1.get_allocated_mb = m.get_allocated_mb - amount_mb ∧
    (m.digest amount_mb).1 = (m.release amount_mb).1 ∧
    (m.digest amount_mb).2 = Except.ok (min amount_mb m.get_allocated_mb) := by
  refine ⟨rfl, ?_, ?_, ?_⟩
  · simp only [MemoryManager.release, MemoryManager.get_allocated_mb, popN_length]
    omega
  · by_cases h : m.allocated_blocks.length = 0
    · simp [MemoryManager.digest, MemoryManager.release, h]
      rfl
    · simp [MemoryManager.digest, MemoryManager.release, h]
  · by_cases h : m.allocated_blocks.length = 0
    · simp [MemoryManager.digest, MemoryManager.get_allocated_mb, h]
    · simp [MemoryManager.digest, MemoryManager.get_allocated_mb, h]

/-- C4 counterexample: the claim says `release` "returns the actual
amount removed to the caller", but its return value is always `Ok(())`:
two concrete calls that remove different numbers of blocks (1 from a
one-block pool, 2 from a three-block pool) return identical values, so
the returned value cannot be the amount removed. -/
theorem release_does_not_return_amount :
    mmOne.get_allocated_mb - (mmOne.release 2).1.get_allocated_mb = 1 ∧
    mmThree.get_allocated_mb - (mmThree.release 2).1.get_allocated_mb = 2 ∧
    (mmOne.release 2).2 = (mmThree.release 2).2 :=
  ⟨rfl, rfl, rfl⟩

/-- C10: `allocate(0)` is accepted at the public interface: the pool is
never changed, the free-RAM pre-check still runs, and the call fails with
`InsufficientMemory` exactly when `free_ram < min_free_ram`. -/
theorem allocate_zero_accepted (m : MemoryManager) (free_ram : Nat) (osOk : Nat → Bool) :
    (m.allocate 0 free_ram osOk).1 = m ∧
    (m.allocate 0 free_ram osOk).2 =
      (if free_ram < m.min_free_ram then
        Except.error (MemError.insufficientMemory 0 free_ram m.min_free_ram)
       else Except.ok ()) := by
  by_cases h : free_ram < m.min_free_ram
  · constructor <;> simp [MemoryManager.allocate, h]
  · constructor <;> simp [MemoryManager.allocate, h, allocLoop]

/-! The metabolism system (src/pet/metabolism.rs).  The f32 fields are
modelled as rationals; `truncQ`/`fractQ`/`ratToUsize` model the f32
truncation primitives used by `process`. -/

/-- Truncation toward zero, as `f32::trunc`. -/
def truncQ (q : ℚ) : ℤ := if 0 ≤ q then ⌊q⌋ else ⌈q⌉

/-- Fractional part with the sign of the argument, as `f32::fract`. -/
def fractQ (q : ℚ) : ℚ := q - truncQ q

/-- The `as usize` cast: truncation toward zero, saturating at 0 below
(negative values cast to 0). -/
def ratToUsize (q : ℚ) : Nat := (⌊q⌋).toNat

/-- `Metabolism` state: base rate, current modifier, accumulated
digestion time. -/
structure Metabolism where
  base_rate : ℚ
  modifier : ℚ
  digestion_timer : ℚ

/-- `Metabolism::new`. -/
def Metabolism.new (base_rate : ℚ) : Metabolism :=
  { base_rate := base_rate, modifier := 1, digestion_timer := 0 }

/-- `Metabolism::calculate_size_modifier`: the six-tier step curve. -/
def Metabolism.calculate_size_modifier (size_mb : Nat) : ℚ :=
  if size_mb ≤ 100 then 1/2
  else if size_mb ≤ 300 then 4/5
  else if size_mb ≤ 600 then 1
  else if size_mb ≤ 1000 then 6/5
  else if size_mb ≤ 1500 then 3/2
  else 2

/-- `Metabolism::process`: returns the updated state and the MB amount to
digest. -/
def Metabolism.process (m : Metabolism) (current_size : Nat) (delta_time : ℚ) :
    Metabolism × Nat :=
  if current_size < 10 then (m, 0)
  else
    let timer := m.digestion_timer + delta_time
    let effective_rate := m.base_rate * m.modifier * Metabolism.calculate_size_modifier current_size
    let to_digest := ratToUsize (effective_rate * timer)
    if 0 < to_digest then
      ({ m with digestion_timer := fractQ timer }, min to_digest (current_size / 2))
    else
      ({ m with digestion_timer := timer }, 0)

/-- `Metabolism::boost`: multiply the modifier, clamping only from above
at 3.0. -/
def Metabolism.boost (m : Metabolism) (multiplier : ℚ) : Metabolism :=
  { m with modifier := min (m.modifier * multiplier) 3 }

/-- `Metabolism::slow`: divide the modifier, clamping only from below at
0.1. -/
def Metabolism.slow (m : Metabolism) (divisor : ℚ) : Metabolism :=
  { m with modifier := max (m.modifier / divisor) (1/10) }

/-- `Metabolism::reset`. -/
def Metabolism.reset (m : Metabolism) : Metabolism :=
  { m with modifier := 1, digestion_timer := 0 }

/-- A call to `boost(k)` or `slow(k)`, for stating properties of call
sequences. -/
inductive MetAction where
  | boost (k : ℚ)
  | slow (k : ℚ)

/-- The argument of the call. -/
def MetAction.param : MetAction → ℚ
  | MetAction.boost k => k
  | MetAction.slow k => k

/-- Apply one `boost`/`slow` call to the metabolism state. -/
def MetAction.apply (m : Metabolism) : MetAction → Metabolism
  | MetAction.boost k => m.boost k
  | MetAction.slow k => m.slow k

/-- Apply a sequence of `boost`/`slow` calls in order. -/
def applyMetActions (m : Metabolism) (acts : List MetAction) : Metabolism :=
  acts.foldl MetAction.apply m

/-! Claims about the metabolism. -/

/-- C6: for every metabolism state (any base rate, modifier and
accumulated timer), every current size and every time delta,
`Metabolism::process` returns at most `current_size / 2` (integer
division). -/
theorem process_le_half (m : Metabolism) (current_size : Nat) (delta_time : ℚ) :
    (m.process current_size delta_time).2 ≤ current_size / 2 := by
  unfold Metabolism.process
  by_cases hs : current_size < 10
  · simp [hs]
  · simp only [hs, if_false]
    by_cases hd : 0 < ratToUsize
        ((m.base_rate * m.modifier * Metabolism.calculate_size_modifier current_size)
          * (m.digestion_timer + delta_time))
    · simp only [hd, if_true]
      exact Nat.min_le_right _ _
    · simp [hd]

/-- One `boost`/`slow` call with argument `k ≥ 1` keeps the modifier
inside `[0.1, 3.0]`. -/
theorem metAction_preserves_range (m : Metabolism) (a : MetAction)
    (hk : 1 ≤ a.param) (h1 : 1/10 ≤ m.modifier) (h2 : m.modifier ≤ 3) :
    1/10 ≤ (MetAction.apply m a).modifier ∧ (MetAction.apply m a).modifier ≤ 3 := by
  have hm0 : (0:ℚ) ≤ m.modifier := le_trans (by norm_num) h1
  cases a with
  | boost k =>
    simp only [MetAction.param] at hk
    constructor
    · exact le_min (le_trans h1 (le_mul_of_one_le_right hm0 hk)) (by norm_num)
    · exact min_le_right _ _
  | slow k =>
    simp only [MetAction.param] at hk
    constructor
    · exact le_max_right _ _
    · exact max_le (le_trans (div_le_self hm0 hk) h2) (by norm_num)

/-- C8 amended: starting from `modifier = 1.0`, any sequence of
`boost(k)`/`slow(k)` calls in which every argument satisfies `k ≥ 1`
keeps the modifier in `[0.1, 3.0]` (the code clamps `boost` only from
above and `slow` only from below, so arguments below 1 can escape the
interval — see the counterexample). -/
theorem modifier_stays_in_range (base_rate : ℚ) (acts : List MetAction)
    (h : ∀ a ∈ acts, 1 ≤ a.param) :
    1/10 ≤ (applyMetActions (Metabolism.new base_rate) acts).modifier ∧
    (applyMetActions (Metabolism.new base_rate) acts).modifier ≤ 3 := by
  have main : ∀ (l : List MetAction) (m : Metabolism), (∀ a ∈ l, 1 ≤ a.param) →
      1/10 ≤ m.modifier → m.modifier ≤ 3 →
      1/10 ≤ (applyMetActions m l).modifier ∧ (applyMetActions m l).modifier ≤ 3 := by
    intro l
    induction l with
    | nil => intro m _ h1 h2; exact ⟨h1, h2⟩
    | cons a rest ih =>
      intro m hall h1 h2
      have ha := hall a (List.mem_cons_self a rest)
      have hrest : ∀ b ∈ rest, 1 ≤ b.param :=
        fun b hb => hall b (List.mem_cons_of_mem a hb)
      have step := metAction_preserves_range m a ha h1 h2
      simp only [applyMetActions, List.foldl_cons]
      exact ih (MetAction.apply m a) hrest step.1 step.2
  exact main acts (Metabolism.new base_rate) h (by norm_num [Metabolism.new])
    (by norm_num [Metabolism.new])

/-- Witness for the amended C8 at a concrete call sequence. -/
theorem modifier_stays_in_range_witness :
    1/10 ≤ (applyMetActions (Metabolism.new 1)
      [MetAction.boost 2, MetAction.slow 3]).modifier ∧
    (applyMetActions (Metabolism.new 1)
      [MetAction.boost 2, MetAction.slow 3]).modifier ≤ 3 :=
  modifier_stays_in_range 1 [MetAction.boost 2, MetAction.slow 3] (by
    intro a ha
    rcases List.mem_cons.mp ha with hh | hh
    · subst hh; norm_num [MetAction.param]
    · rcases List.mem_cons.mp hh with hh2 | hh2
      · subst hh2; norm_num [MetAction.param]
      · exact absurd hh2 (List.not_mem_nil a))

/-- C8 counterexample: the claim allows any positive argument, but
`boost` clamps only from above: from the initial modifier `1.0`, the
single call `boost(0.01)` yields modifier `0.01`, which is below `0.1`
and hence outside `[0.1, 3.0]`. -/
theorem modifier_escapes_range :
    ((Metabolism.new 1).boost (1/100)).modifier = 1/100 ∧
    ¬ ((1:ℚ)/10 ≤ ((Metabolism.new 1).boost (1/100)).modifier) := by
  have hmod : ((Metabolism.new 1).boost (1/100)).modifier = 1/100 := by
    show min ((1:ℚ) * (1/100)) 3 = 1/100
    rw [min_eq_left (by norm_num)]
    norm_num
  refine ⟨hmod, ?_⟩
  rw [hmod]
  norm_num

/-! The pet simulation (src/pet/mod.rs, src/pet/state.rs).  The fields
`name`, `personality` and `birth_time` of the Rust struct are omitted:
none of the embedded operations reads them (`eat`, `metabolize`,
`update_mood`, `boost_happiness`, `kill` and the getters below touch only
the fields kept here). -/

/-- Pet development states (src/pet/state.rs `PetState`). -/
inductive PetState where
  | Baby | Child | Teen | Adult | Chubby | Fat | Huge | Gigantic
deriving DecidableEq

/-- Moods (src/pet/personality.rs `Mood`). -/
inductive Mood where
  | Happy | Excited | Content | Hungry | Starving | Sad | Angry | Sleepy | Dead
deriving DecidableEq

/-- The pet state (src/pet/mod.rs `Pet`). -/
structure Pet where
  size_mb : Nat
  state : PetState
  metabolism : Metabolism
  mood : Mood
  hunger : ℚ
  happiness : ℚ
  alive : Bool

/-- The size-to-tier breakpoints of `Pet::update_state`, as a function of
the size alone. -/
def stateForSize (size_mb : Nat) : PetState :=
  if size_mb ≤ 50 then PetState.Baby
  else if size_mb ≤ 150 then PetState.Child
  else if size_mb ≤ 300 then PetState.Teen
  else if size_mb ≤ 500 then PetState.Adult
  else if size_mb ≤ 1000 then PetState.Chubby
  else if size_mb ≤ 1500 then PetState.Fat
  else if size_mb ≤ 2000 then PetState.Huge
  else PetState.Gigantic

/-- `Pet::update_state`: store the tier recomputed from the current size. -/
def Pet.update_state (p : Pet) : Pet := { p with state := stateForSize p.size_mb }

/-- `Pet::calculate_mood`. -/
def Pet.calculate_mood (p : Pet) : Mood :=
  if p.alive = false then Mood.Dead
  else if 90 < p.hunger then Mood.Starving
  else if 70 < p.hunger then Mood.Hungry
  else if p.happiness < 20 then Mood.Sad
  else if 80 < p.happiness then Mood.Excited
  else if p.hunger < 30 ∧ 60 < p.happiness then Mood.Happy
  else Mood.Content

/-- `Pet::new`: starting size and metabolism rate come from the config
(defaults 50 and 1.0); the state field is set to `Baby` and mood to
`Happy` regardless of the starting size, as in the source. -/
def Pet.new (starting_size_mb : Nat) (metabolism_rate : ℚ) : Pet :=
  { size_mb := starting_size_mb, state := PetState.Baby,
    metabolism := Metabolism.new metabolism_rate, mood := Mood.Happy,
    hunger := 30, happiness := 80, alive := true }

/-- `Pet::eat` (always returns `Ok(())` in the source): no-op when dead;
otherwise grow, adjust hunger and happiness, recompute state, recompute
mood. -/
def Pet.eat (p : Pet) (amount_mb : Nat) : Pet :=
  if p.alive = false then p
  else
    let p1 := { p with
      size_mb := p.size_mb + amount_mb,
      hunger := max (p.hunger - (amount_mb : ℚ) * 2) 0,
      happiness := min (p.happiness + (amount_mb : ℚ) * (1/2)) 100 }
    let p2 := p1.update_state
    { p2 with mood := p2.calculate_mood }

/-- `Pet::metabolize` (always returns `Ok(())` in the source): no-op when
dead; otherwise digest, increase hunger, decay happiness when hungry,
die at hunger 100.  Note it does not call `update_state` or recompute the
mood. -/
def Pet.metabolize (p : Pet) (delta_time : ℚ) : Pet :=
  if p.alive = false then p
  else
    let pr := p.metabolism.process p.size_mb delta_time
    let p1 := { p with
      metabolism := pr.1,
      size_mb := if 0 < pr.2 then p.size_mb - pr.2 else p.size_mb }
    let p2 := { p1 with hunger := min (p1.hunger + delta_time * 2) 100 }
    let p3 := if 70 < p2.hunger
      then { p2 with happiness := max (p2.happiness - delta_time * 3) 0 }
      else p2
    if 100 ≤ p3.hunger then { p3 with alive := false } else p3

/-- `Pet::update_mood`. -/
def Pet.update_mood (p : Pet) : Pet := { p with mood := p.calculate_mood }

/-- `Pet::boost_happiness`: a flat +20 happiness bump capped at 100.
Note the source has no aliveness check here. -/
def Pet.boost_happiness (p : Pet) : Pet :=
  { p with happiness := min (p.happiness + 20) 100 }

/-- `Pet::kill`. -/
def Pet.kill (p : Pet) : Pet := { p with alive := false, mood := Mood.Dead }

/-- One mutating pet operation, for stating properties of operation
sequences. -/
inductive PetOp where
  | eat (amount_mb : Nat)
  | metabolize (delta_time : ℚ)
  | boost_happiness

/-- Apply one operation. -/
def PetOp.apply (p : Pet) : PetOp → Pet
  | PetOp.eat n => p.eat n
  | PetOp.metabolize d => p.metabolize d
  | PetOp.boost_happiness => p.boost_happiness

/-- Apply a sequence of operations in order. -/
def applyPetOps (p : Pet) (ops : List PetOp) : Pet := ops.foldl PetOp.apply p

/-- Under any operation sequence, a dead pet stays dead and its size,
hunger, state and mood never change (only `boost_happiness` can still
write the happiness field). -/
theorem applyPetOps_dead (ops : List PetOp) : ∀ p : Pet, p.alive = false →
    (applyPetOps p ops).alive = false ∧ (applyPetOps p ops).size_mb = p.size_mb ∧
    (applyPetOps p ops).hunger = p.hunger ∧ (applyPetOps p ops).state = p.state ∧
    (applyPetOps p ops).mood = p.mood := by
  induction ops with
  | nil => intro p h; exact ⟨h, rfl, rfl, rfl, rfl⟩
  | cons op rest ih =>
    intro p h
    simp only [applyPetOps, List.foldl_cons] at ih ⊢
    cases op with
    | eat n =>
      rw [show PetOp.apply p (PetOp.eat n) = p from by simp [PetOp.apply, Pet.eat, h]]
      exact ih p h
    | metabolize d =>
      rw [show PetOp.apply p (PetOp.metabolize d) = p from by
        simp [PetOp.apply, Pet.metabolize, h]]
      exact ih p h
    | boost_happiness =>
      have h2 := ih p.boost_happiness (by simp [Pet.boost_happiness, h])
      simpa [PetOp.apply, Pet.boost_happiness] using h2

/-- C5 amended: once `alive = false`, `eat` and `metabolize` are complete
no-ops, and under every sequence of `eat`/`metabolize`/`boost_happiness`
calls the pet stays dead with `size_mb`, `hunger`, `state` and `mood`
unchanged; `boost_happiness`, however, has no aliveness check and can
still raise the happiness of a dead pet (see the counterexample). -/
theorem dead_state_absorbing (p : Pet) (h : p.alive = false) (n : Nat) (d : ℚ)
    (ops : List PetOp) :
    p.eat n = p ∧ p.metabolize d = p ∧
    (applyPetOps p ops).alive = false ∧
    (applyPetOps p ops).size_mb = p.size_mb ∧
    (applyPetOps p ops).hunger = p.hunger ∧
    (applyPetOps p ops).state = p.state ∧
    (applyPetOps p ops).mood = p.mood := by
  have hseq := applyPetOps_dead ops p h
  exact ⟨by simp [Pet.eat, h], by simp [Pet.metabolize, h],
    hseq.1, hseq.2.1, hseq.2.2.1, hseq.2.2.2.1, hseq.2.2.2.2⟩

/-- Witness for the amended C5 at a concrete dead pet and operation
sequence. -/
theorem dead_state_absorbing_witness :
    ((Pet.new 50 1).kill).eat 5 = (Pet.new 50 1).kill ∧
    ((Pet.new 50 1).kill).metabolize 2 = (Pet.new 50 1).kill ∧
    (applyPetOps ((Pet.new 50 1).kill)
      [PetOp.eat 3, PetOp.boost_happiness, PetOp.metabolize 1]).alive = false ∧
    (applyPetOps ((Pet.new 50 1).kill)
      [PetOp.eat 3, PetOp.boost_happiness, PetOp.metabolize 1]).size_mb
      = ((Pet.new 50 1).kill).size_mb ∧
    (applyPetOps ((Pet.new 50 1).kill)
      [PetOp.eat 3, PetOp.boost_happiness, PetOp.metabolize 1]).hunger
      = ((Pet.new 50 1).kill).hunger ∧
    (applyPetOps ((Pet.new 50 1).kill)
      [PetOp.eat 3, PetOp.boost_happiness, PetOp.metabolize 1]).state
      = ((Pet.new 50 1).kill).state ∧
    (applyPetOps ((Pet.new 50 1).kill)
      [PetOp.eat 3, PetOp.boost_happiness, PetOp.metabolize 1]).mood
      = ((Pet.new 50 1).kill).mood :=
  dead_state_absorbing ((Pet.new 50 1).kill) rfl 5 2
    [PetOp.eat 3, PetOp.boost_happiness, PetOp.metabolize 1]

/-- C5 counterexample: `boost_happiness` is a mutating operation with no
aliveness check: on a freshly killed pet (happiness 80) it raises the
happiness to 100, so not every mutating operation leaves a dead pet
unchanged. -/
theorem boost_happiness_mutates_dead_pet :
    ((Pet.new 50 1).kill).alive = false ∧
    ((Pet.new 50 1).kill).happiness = 80 ∧
    (((Pet.new 50 1).kill).boost_happiness).happiness = 100 := by
  refine ⟨rfl, rfl, ?_⟩
  show min ((80:ℚ) + 20) 100 = 100
  norm_num

/-- C7 amended: `eat` recomputes the stored tier, so after `eat` on a
live pet the stored state equals the tier of the new size; `metabolize`
never recomputes it — it leaves the stored state exactly as it was, so
after a digestion step the stored tier can disagree with the tier of the
new size (see the counterexample). -/
theorem state_recomputed_on_eat_only (p : Pet) (n : Nat) (d : ℚ)
    (h : p.alive = true) :
    (p.eat n).state = stateForSize (p.eat n).size_mb ∧
    (p.metabolize d).state = p.state := by
  constructor
  · simp [Pet.eat, h, Pet.update_state]
  · simp [Pet.metabolize, h, apply_ite (fun q : Pet => q.state)]

/-- Witness for the amended C7 at a concrete live pet. -/
theorem state_recomputed_on_eat_only_witness :
    ((Pet.new 50 1).eat 0).state = stateForSize ((Pet.new 50 1).eat 0).size_mb ∧
    ((Pet.new 50 1).metabolize 0).state = (Pet.new 50 1).state :=
  state_recomputed_on_eat_only (Pet.new 50 1) 0 0 rfl

/-- C7 counterexample: a default new pet (size 50, rate 1.0) eats 101 MB,
reaching size 151 with stored tier `Teen`; one `metabolize(2.0)` tick
digests 1 MB down to size 150, whose tier by the fixed breakpoints is
`Child`, yet the stored state is still `Teen` — after `metabolize` the
stored tier does not equal the tier computed from the current size. -/
theorem metabolize_leaves_stale_state :
    (((Pet.new 50 1).eat 101).metabolize 2).size_mb = 150 ∧
    (((Pet.new 50 1).eat 101).metabolize 2).state = PetState.Teen ∧
    stateForSize 150 = PetState.Child ∧
    PetState.Teen ≠ PetState.Child := by
  have h1 : (Pet.new 50 1).eat 101 =
      { size_mb := 151, state := PetState.Teen, metabolism := Metabolism.new 1,
        mood := Mood.Excited, hunger := 0, happiness := 100, alive := true } := by
    simp only [Pet.eat, Pet.new, Pet.update_state, Pet.calculate_mood, stateForSize]
    norm_num
  have h2 : (Pet.mk 151 PetState.Teen (Metabolism.new 1) Mood.Excited 0 100 true).metabolize 2 =
      { size_mb := 150, state := PetState.Teen, metabolism := Metabolism.mk 1 1 0,
        mood := Mood.Excited, hunger := 4, happiness := 100, alive := true } := by
    simp only [Pet.metabolize, Metabolism.process, Metabolism.new,
      Metabolism.calculate_size_modifier, ratToUsize, fractQ, truncQ]
    norm_num
  rw [h1, h2]
  exact ⟨rfl, rfl, rfl, by decide⟩

/-! The game orchestration (src/game.rs).  Only the parts the load-game
claim needs are embedded: the save-data snapshot, the game state fields it
writes, and `Game::load_game`.  Reading and JSON-parsing the save file are
external I/O and are passed in as an explicit outcome: `none` models a
missing save file (early return with a message), `some (Except.error _)`
a read/parse failure (propagated as an error before any state is
written), `some (Except.ok sd)` a successfully parsed save. -/

/-- `Pet::get_size_mb`. -/
def Pet.get_size_mb (p : Pet) : Nat := p.size_mb

/-- The serialized snapshot (src/game.rs `SaveData`). -/
structure SaveData where
  pet : Pet
  total_mb_eaten : Nat
  feeding_count : Nat
  max_size_reached : Nat

/-- The game state fields relevant to loading (src/game.rs `Game`;
renderer, monitor, config, messages and timing fields omitted). -/
structure Game where
  pet : Pet
  memory_manager : MemoryManager
  total_mb_eaten : Nat
  feeding_count : Nat
  max_size_reached : Nat

/-- Errors a load can surface. -/
inductive LoadError where
  | readOrParseFailed
  | mem (e : MemError)

/-- `Game::load_game`: early `Ok` when the save file is missing; on a
parsed save, install the loaded pet and stats, then clear the memory
manager and re-allocate the loaded size (an allocation error propagates
via `?` after the pet is installed and the pool cleared). -/
def Game.load_game (g : Game) (file : Option (Except String SaveData))
    (free_ram : Nat) (osOk : Nat → Bool) : Game × Except LoadError Unit :=
  match file with
  | none => (g, Except.ok ())
  | some (Except.error _) => (g, Except.error LoadError.readOrParseFailed)
  | some (Except.ok sd) =>
    let g1 := { g with
      pet := sd.pet,
      total_mb_eaten := sd.total_mb_eaten,
      feeding_count := sd.feeding_count,
      max_size_reached := sd.max_size_reached }
    let ar := (g1.memory_manager.clear).allocate sd.pet.get_size_mb free_ram osOk
    match ar.2 with
    | Except.ok _ => ({ g1 with memory_manager := ar.1 }, Except.ok ())
    | Except.error e => ({ g1 with memory_manager := ar.1 }, Except.error (LoadError.mem e))

/-- A game already holding 120 MB whose pet has size 120 MB. -/
def heldGame : Game :=
  { pet := Pet.new 120 1,
    memory_manager := { allocated_blocks := List.replicate 120 zeroBlock, min_free_ram := 1024 },
    total_mb_eaten := 0, feeding_count := 0, max_size_reached := 0 }

/-- A parsed save whose pet has size 300 MB. -/
def savedAt300 : SaveData :=
  { pet := Pet.new 300 1, total_mb_eaten := 0, feeding_count := 0, max_size_reached := 0 }

/-- C9 amended: for a load that finds a parseable save, a successful
`load_game` leaves `allocated_mb` equal to the loaded pet's size
(clear-then-reallocate), whatever the manager held before; but when the
re-allocation fails the error propagates after the clear, leaving the
manager at 0 MB while the loaded pet is already installed — the
resynchronization invariant holds after every successful load, not after
every load. -/
theorem load_game_resync (g : Game) (sd : SaveData) (free_ram : Nat)
    (osOk : Nat → Bool) :
    (match g.load_game (some (Except.ok sd)) free_ram osOk with
     | (g1, Except.ok _) =>
         g1.memory_manager.get_allocated_mb = sd.pet.get_size_mb ∧ g1.pet = sd.pet
     | (g1, Except.error _) => g1.memory_manager.get_allocated_mb = 0) := by
  unfold Game.load_game
  by_cases h : free_ram < sd.pet.get_size_mb + g.memory_manager.min_free_ram
  · simp [MemoryManager.allocate, MemoryManager.clear, h, MemoryManager.get_allocated_mb]
  · have hspec := allocLoop_spec osOk sd.pet.get_size_mb [] 0
    rcases hl : allocLoop osOk [] 0 sd.pet.get_size_mb with ⟨blocks1, r⟩
    rw [hl] at hspec
    cases r with
    | ok u =>
      simp only [MemoryManager.allocate, MemoryManager.clear, MemoryManager.get_allocated_mb,
        h, if_false, hl]
      simp only [List.length_nil, Nat.zero_add] at hspec
      exact ⟨hspec, trivial⟩
    | error e =>
      simp only [MemoryManager.allocate, MemoryManager.clear, MemoryManager.get_allocated_mb,
        h, if_false, hl]
      simpa using hspec.1

/-- C9 counterexample: the manager holds 120 MB, the save's pet has size
300 MB, but only 100 MB of RAM is free (below 300 + the reserved 1024):
`load_game` clears the pool, the re-allocation is refused by the
pre-check, the error propagates, and after the load the manager holds
0 MB — not the loaded size 300. -/
theorem load_game_failure_breaks_resync :
    heldGame.memory_manager.get_allocated_mb = 120 ∧
    ((heldGame.load_game (some (Except.ok savedAt300)) 100 (fun _ => true)).1).pet.get_size_mb
      = 300 ∧
    ((heldGame.load_game (some (Except.ok savedAt300)) 100 (fun _ => true)).1).memory_manager.get_allocated_mb
      = 0 ∧
    (0:Nat) ≠ 300 := by
  refine ⟨?_, rfl, rfl, by decide⟩
  show (List.replicate 120 zeroBlock).length = 120
  simp
